import Mathlib

/-!
Verification development for the beer-app profile-creation flow.

This file gives a shallow embedding, in Lean 4, of the TypeScript sources of
the repository:

* the Cloudinary URL transformer and upload client
  (lib/cloudinary.ts, two draft revisions);
* the add-profile form screen: its validator, its picker handlers, its
  submit handler and its disabled guard (app/add-profile.tsx, first draft,
  plus the upload-failure path of the second draft's web file input);
* the WebPhotoUpload component's image validation and file processing
  (components/WebPhotoUpload.tsx).

JavaScript strings are embedded as Lean String and List Char; JavaScript
numbers that the code actually manipulates (ages, option values) are embedded
as Rat and Int; the WHATWG URL constructor is embedded as a parser for
pre-normalized absolute URLs of the shape scheme://host/path?query#fragment
(parse failure plays the role of the constructor throwing).  Asynchronous
handlers are embedded as pure state-transition functions whose external
outcomes (picker results, HTTP responses) are event parameters; the writes a
handler issues to the document store are recorded in a ghost log.
-/

/-- One decimal digit as a character, for embedding JS number-to-string. -/
def digitChar (n : Nat) : Char := Char.ofNat (48 + n)

/-- Embedding of JS String.prototype.split with a one-character separator. -/
def splitOnChar (sep : Char) : List Char → List (List Char)
  | [] => [[]]
  | c :: rest =>
    if c = sep then [] :: splitOnChar sep rest
    else
      match splitOnChar sep rest with
      | [] => [[c]]
      | h :: t => (c :: h) :: t

/-- Embedding of JS Array.prototype.join with a one-character separator. -/
def joinSep (sep : Char) : List (List Char) → List Char
  | [] => []
  | [p] => p
  | p :: rest => p ++ sep :: joinSep sep rest

/-- Split a character list at the first occurrence of a pattern; `none` when
the pattern does not occur.  Embeds JS substring search. -/
def splitFirstOn (pat : List Char) : List Char → Option (List Char × List Char)
  | [] => if pat.isEmpty then some ([], []) else none
  | c :: rest =>
    if pat.isPrefixOf (c :: rest) then some ([], (c :: rest).drop pat.length)
    else
      match splitFirstOn pat rest with
      | some (a, b) => some (c :: a, b)
      | none => none

/-- Embedding of JS String.prototype.includes. -/
def strContains (s pat : String) : Bool := (splitFirstOn pat.data s.data).isSome

/-- Whitespace-trimming on character lists. -/
def jsTrimChars (l : List Char) : List Char :=
  ((l.dropWhile Char.isWhitespace).reverse.dropWhile Char.isWhitespace).reverse

/-- Embedding of JS String.prototype.trim (ASCII whitespace). -/
def jsTrim (s : String) : String := String.mk (jsTrimChars s.data)

/-- Embedding of JS String.prototype.toLowerCase for the ASCII MIME strings
this code compares. -/
def jsToLower (s : String) : String := String.mk (s.data.map Char.toLower)

/-- Embedding of JS String.prototype.startsWith. -/
def jsStartsWith (s pre : String) : Bool := pre.data.isPrefixOf s.data

/-- Split at the first occurrence of a character, keeping that character at
the head of the second component; the second component is empty when the
character does not occur. -/
def splitAtFirstChar (sep : Char) : List Char → List Char × List Char
  | [] => ([], [])
  | c :: rest =>
    if c = sep then ([], c :: rest)
    else
      let p := splitAtFirstChar sep rest
      (c :: p.1, p.2)

/-- The components of a parsed URL, as exposed by the WHATWG URL object:
scheme (protocol without the colon), host, pathname (leading slash included),
search (leading question mark included) and hash (leading hash sign
included). -/
structure JsUrl where
  scheme : List Char
  host : List Char
  pathname : List Char
  search : List Char
  hash : List Char
deriving DecidableEq

/-- Characters allowed in a URL scheme. -/
def isSchemeChar (c : Char) : Bool := c.isAlphanum || c = '+' || c = '-' || c = '.'

/-- Embedding of the WHATWG URL constructor for pre-normalized absolute URLs
of the shape scheme://host/path?query#fragment.  Returns `none` where the
constructor would throw (no scheme separator, empty scheme or host). -/
def parseUrl (url : String) : Option JsUrl :=
  match splitFirstOn "://".data url.data with
  | none => none
  | some (schemeL, rest) =>
    if schemeL.isEmpty then none
    else if !(schemeL.all isSchemeChar) then none
    else
      let hb := splitAtFirstChar '#' rest
      let qb := splitAtFirstChar '?' hb.1
      let hp := splitAtFirstChar '/' qb.1
      if hp.1.isEmpty then none
      else
        some { scheme := schemeL, host := hp.1,
               pathname := if hp.2.isEmpty then ['/'] else hp.2,
               search := qb.2, hash := hb.2 }

/-- Embedding of URL.prototype.toString for the URLs of `parseUrl`. -/
def serializeUrl (u : JsUrl) : String :=
  String.mk (u.scheme ++ "://".data ++ u.host ++ u.pathname ++ u.search ++ u.hash)

/-- A Cloudinary option value that is either the literal auto or a number
(the numbers used by this code are integral). -/
inductive NumOrAuto where
  | auto
  | num (n : Int)
deriving DecidableEq

/-- The format option values of CloudinaryTransformOptions. -/
inductive CloudFormat where
  | auto
  | jpg
  | png
  | webp
  | heic
deriving DecidableEq

/-- The crop option values of CloudinaryTransformOptions. -/
inductive CropMode where
  | fill
  | fit
  | scale
  | thumb
  | crop
deriving DecidableEq

/-- Embedding of the CloudinaryTransformOptions record type; `none` is an
absent (undefined) key. -/
structure CloudinaryTransformOptions where
  quality : Option NumOrAuto := none
  format : Option CloudFormat := none
  progressive : Option Bool := none
  crop : Option CropMode := none
  gravity : Option String := none
  width : Option NumOrAuto := none
  height : Option Int := none
  dpr : Option NumOrAuto := none
deriving DecidableEq

/-- Decimal digits of a natural number, most significant first; the first
argument is recursion fuel. -/
def natToCharsAux : Nat → Nat → List Char → List Char
  | 0, _, acc => acc
  | fuel + 1, n, acc =>
    if n < 10 then digitChar n :: acc
    else natToCharsAux fuel (n / 10) (digitChar (n % 10) :: acc)

/-- Embedding of JS number-to-string for natural numbers. -/
def natToChars (n : Nat) : List Char := natToCharsAux (n + 1) n []

/-- Embedding of JS number-to-string for integers. -/
def intToChars (i : Int) : List Char :=
  if i < 0 then '-' :: natToChars i.natAbs else natToChars i.natAbs

/-- Template-literal rendering of a quality / width / dpr option value. -/
def renderNumOrAuto : NumOrAuto → List Char
  | .auto => "auto".data
  | .num n => intToChars n

/-- Template-literal rendering of a format option value. -/
def renderFormat : CloudFormat → List Char
  | .auto => "auto".data
  | .jpg => "jpg".data
  | .png => "png".data
  | .webp => "webp".data
  | .heic => "heic".data

/-- Template-literal rendering of a crop option value. -/
def renderCrop : CropMode → List Char
  | .fill => "fill".data
  | .fit => "fit".data
  | .scale => "scale".data
  | .thumb => "thumb".data
  | .crop => "crop".data

/-- JS truthiness of a quality / width / dpr option value: the string auto is
truthy, a number is truthy unless it is zero. -/
def numOrAutoTruthy : NumOrAuto → Bool
  | .auto => true
  | .num n => n != 0

/-- The crop token push: the crop values are never falsy, so any set crop
contributes its token. -/
def cropChunk (o : Option CropMode) : List (List Char) :=
  match o with
  | some c => ["c_".data ++ renderCrop c]
  | none => []

/-- The gravity token push: an empty gravity string is JS-falsy and pushes
nothing. -/
def gravityChunk (o : Option String) : List (List Char) :=
  match o with
  | some g => if g = "" then [] else ["g_".data ++ g.data]
  | none => []

/-- The width token push: zero is JS-falsy and pushes nothing. -/
def widthChunk (o : Option NumOrAuto) : List (List Char) :=
  match o with
  | some w => if numOrAutoTruthy w then ["w_".data ++ renderNumOrAuto w] else []
  | none => []

/-- The height token push: zero is JS-falsy and pushes nothing. -/
def heightChunk (o : Option Int) : List (List Char) :=
  match o with
  | some n => if n != 0 then ["h_".data ++ intToChars n] else []
  | none => []

/-- The dpr token push: zero is JS-falsy and pushes nothing. -/
def dprChunk (o : Option NumOrAuto) : List (List Char) :=
  match o with
  | some d => if numOrAutoTruthy d then ["dpr_".data ++ renderNumOrAuto d] else []
  | none => []

/-- The transformation token list `tx` built by transformCloudinaryUrl:
quality and format default to auto (nullish coalescing), every other token is
pushed only when the option is JS-truthy, in the source's fixed order. -/
def buildTx (opts : CloudinaryTransformOptions) : List (List Char) :=
  ["q_".data ++ renderNumOrAuto (opts.quality.getD .auto),
   "f_".data ++ renderFormat (opts.format.getD .auto)]
  ++ (if opts.progressive = some true then ["fl_progressive".data] else [])
  ++ cropChunk opts.crop
  ++ gravityChunk opts.gravity
  ++ widthChunk opts.width
  ++ heightChunk opts.height
  ++ dprChunk opts.dpr

/-- The body of transformCloudinaryUrl after the URL has parsed: split the
pathname on slashes, locate the upload segment (findIndex returning -1 is
embedded as findIdx returning the length), splice the token segment in
right after it and reassemble; without an upload segment the original
string comes back. -/
def transformParsed (url : String) (opts : CloudinaryTransformOptions) (u : JsUrl) : String :=
  let parts := splitOnChar '/' u.pathname
  let uploadIndex := parts.findIdx (fun p => p == "upload".data)
  if uploadIndex = parts.length then url
  else
    let txString := joinSep ',' (buildTx opts)
    let before := joinSep '/' (parts.take (uploadIndex + 1))
    let after := joinSep '/' (parts.drop (uploadIndex + 1))
    serializeUrl { u with pathname := before ++ '/' :: txString ++ '/' :: after }

/-- Embedding of transformCloudinaryUrl (lib/cloudinary.ts).  Returns the
input unchanged for the empty string, for strings not containing the
Cloudinary domain, where URL parsing fails (the try/catch), and where no
path segment equals upload. -/
def transformCloudinaryUrl (url : String) (opts : CloudinaryTransformOptions) : String :=
  if url = "" then url
  else if !(strContains url "res.cloudinary.com" || strContains url "cloudinary.com") then url
  else
    match parseUrl url with
    | none => url
    | some u => transformParsed url opts u

/-- The fixed default options that uploadImageToCloudinary passes to
transformCloudinaryUrl on success. -/
def defaultUploadTransform : CloudinaryTransformOptions :=
  { quality := some .auto, format := some .auto, progressive := some true,
    crop := some .fill, gravity := some "auto", width := some (.num 1080),
    height := none, dpr := some .auto }

/-- The observable parts of the HTTP response of the Cloudinary upload
endpoint: the ok flag, the status code, the error text read on failure, and
the optional secure_url field of the JSON body. -/
structure UploadHttpResponse where
  ok : Bool
  status : Nat
  errText : String
  secureUrl : Option String

/-- Embedding of the response-handling tail of uploadImageToCloudinary
(lib/cloudinary.ts, first revision, lines 86-106): non-ok responses reject
with the status and error text; an ok response rejects when its secure_url
is JS-falsy, which covers both a missing field and an empty string (the
source's check is on the truthiness of url, not the field's presence);
otherwise the promise resolves to the transformed secure_url. -/
def uploadResponseResult (r : UploadHttpResponse) : Except String String :=
  if !r.ok then
    .error (jsTrim ("Upload failed (" ++ String.mk (natToChars r.status) ++ "). " ++ r.errText))
  else
    match r.secureUrl with
    | none => .error "Upload succeeded but no secure_url returned"
    | some url =>
      if url = "" then .error "Upload succeeded but no secure_url returned"
      else .ok (transformCloudinaryUrl url defaultUploadTransform)

/-- The three input shapes accepted by uploadImageToCloudinary: a string
(data URL or native file URI), a web File object (with its name), or a raw
Blob. -/
inductive UploadInput where
  | uriString (s : String)
  | fileObj (name : String)
  | blobVal
deriving DecidableEq

/-- Where the binary content of a multipart file part comes from. -/
inductive BlobSource where
  | fetchedDataUrl (dataUrl : String)
  | webFile (name : String)
  | rawBlob
deriving DecidableEq

/-- The file entry appended to the multipart form body: either a blob with a
filename, or a native file descriptor carrying uri, MIME type and name. -/
inductive FormFileEntry where
  | blobPart (source : BlobSource) (filename : String)
  | uriPart (uri : String) (mimeType : String) (filename : String)
deriving DecidableEq

/-- Embedding of the input-normalization head of uploadImageToCloudinary
(lib/cloudinary.ts, first revision, lines 59-77): data URLs are fetched and
appended as blobs named photo.jpg; any other string is appended as a native
descriptor with MIME type image/jpeg and name photo.jpg; a File keeps its
own name unless empty; a Blob is named photo.jpg. -/
def formFileEntry : UploadInput → FormFileEntry
  | .uriString s =>
    if jsStartsWith s "data:" then .blobPart (.fetchedDataUrl s) "photo.jpg"
    else .uriPart s "image/jpeg" "photo.jpg"
  | .fileObj name => .blobPart (.webFile name) (if name = "" then "photo.jpg" else name)
  | .blobVal => .blobPart .rawBlob "photo.jpg"

/-- Embedding of the same normalization in the second revision of
uploadImageToCloudinary (lines 61-71), whose input type has no raw-Blob
case: every string input, data URL or not, becomes the native descriptor
with MIME type image/jpeg and name photo.jpg; a File is appended as itself
(the browser supplies the file's own name). -/
def formFileEntryAlt : UploadInput → FormFileEntry
  | .uriString s => .uriPart s "image/jpeg" "photo.jpg"
  | .fileObj name => .blobPart (.webFile name) name
  | .blobVal => .blobPart .rawBlob ""

/-- Numeric value of a list of decimal digit characters. -/
def digitsToNat (l : List Char) : Nat :=
  l.foldl (fun acc c => 10 * acc + (c.toNat - 48)) 0

/-- Hexadecimal digit test. -/
def isHexDigitChar (c : Char) : Bool :=
  c.isDigit || ('a' ≤ c && c ≤ 'f') || ('A' ≤ c && c ≤ 'F')

/-- Value of a hexadecimal digit character. -/
def hexDigitVal (c : Char) : Nat :=
  if c.isDigit then c.toNat - 48
  else if 'a' ≤ c && c ≤ 'f' then c.toNat - 87
  else c.toNat - 55

/-- Numeric value of a list of hexadecimal digit characters. -/
def hexToNat (l : List Char) : Nat :=
  l.foldl (fun acc c => 16 * acc + hexDigitVal c) 0

/-- Binary digit test. -/
def isBinDigitChar (c : Char) : Bool := c = '0' || c = '1'

/-- Numeric value of a list of binary digit characters. -/
def binToNat (l : List Char) : Nat :=
  l.foldl (fun acc c => 2 * acc + (c.toNat - 48)) 0

/-- Octal digit test. -/
def isOctDigitChar (c : Char) : Bool := '0' ≤ c && c ≤ '7'

/-- Numeric value of a list of octal digit characters. -/
def octToNat (l : List Char) : Nat :=
  l.foldl (fun acc c => 8 * acc + (c.toNat - 48)) 0

/-- Parse the optional exponent tail of a JS decimal numeric literal and
apply it to the mantissa; anything left over that is not a well-formed
exponent yields `none` (NaN). -/
def applyExponent (l : List Char) (m : Rat) : Option Rat :=
  match l with
  | [] => some m
  | e :: r =>
    if e = 'e' ∨ e = 'E' then
      let sgnDigits : Bool × List Char :=
        match r with
        | '+' :: r2 => (false, r2)
        | '-' :: r2 => (true, r2)
        | _ => (false, r)
      if sgnDigits.2.isEmpty ∨ !(sgnDigits.2.all Char.isDigit) then none
      else
        let ex := digitsToNat sgnDigits.2
        if sgnDigits.1 then some (m / (10 : Rat) ^ ex) else some (m * (10 : Rat) ^ ex)
    else none

/-- Parse an unsigned JS decimal numeric literal (integer part, optional
fraction, optional exponent); `none` is NaN. -/
def parseUnsignedDecimal (l : List Char) : Option Rat :=
  let ip := l.takeWhile Char.isDigit
  let rest1 := l.dropWhile Char.isDigit
  match rest1 with
  | '.' :: r =>
    let fp := r.takeWhile Char.isDigit
    let rest2 := r.dropWhile Char.isDigit
    if ip.isEmpty && fp.isEmpty then none
    else applyExponent rest2 ((digitsToNat ip : Rat) + (digitsToNat fp : Rat) / (10 : Rat) ^ fp.length)
  | _ =>
    if ip.isEmpty then none
    else applyExponent rest1 (digitsToNat ip : Rat)

/-- Embedding of the JS Number() conversion on strings, as used by the form
validator: whitespace-trimmed; empty is 0; decimal literals with optional
sign, fraction and exponent; 0x / 0b / 0o radix literals (unsigned only);
everything else is NaN, embedded as `none`.  The non-finite values
(Infinity and -Infinity) are also folded into `none`: the validator treats
them, like NaN, as a rejected age, merely with a different message. -/
def jsNumber (s : String) : Option Rat :=
  let t := jsTrim s
  if t = "" then some 0
  else
    match t.data with
    | '+' :: r =>
      if r = "Infinity".data then none else parseUnsignedDecimal r
    | '-' :: r =>
      if r = "Infinity".data then none else (parseUnsignedDecimal r).map (fun q => -q)
    | l =>
      if l = "Infinity".data then none
      else
        match l with
        | '0' :: x :: r =>
          if x = 'x' ∨ x = 'X' then
            if r.isEmpty ∨ !(r.all isHexDigitChar) then none else some (hexToNat r : Rat)
          else if x = 'b' ∨ x = 'B' then
            if r.isEmpty ∨ !(r.all isBinDigitChar) then none else some (binToNat r : Rat)
          else if x = 'o' ∨ x = 'O' then
            if r.isEmpty ∨ !(r.all isOctDigitChar) then none else some (octToNat r : Rat)
          else parseUnsignedDecimal l
        | _ => parseUnsignedDecimal l

/-- One maximal whitespace run becomes one space; embeds the regex
replacement replace(/\s+/g, single space).  The Bool argument records
whether the previous character belonged to a whitespace run. -/
def collapseWsAux : Bool → List Char → List Char
  | _, [] => []
  | prevWs, c :: rest =>
    if c.isWhitespace then
      if prevWs then collapseWsAux true rest
      else ' ' :: collapseWsAux true rest
    else c :: collapseWsAux false rest

/-- Embedding of replace(/\s+/g, single space) on a string. -/
def jsCollapseWs (s : String) : String := String.mk (collapseWsAux false s.data)

/-- The sanitization applied by onSubmit to name, city and description:
trim, then collapse internal whitespace runs. -/
def sanitizeField (s : String) : String := jsCollapseWs (jsTrim s)

/-- The form's four text fields (FormState in add-profile.tsx). -/
structure FormState where
  name : String
  age : String
  city : String
  description : String
deriving DecidableEq

/-- The per-field error record (FormErrors in add-profile.tsx); a field
absent from the JS object is `none`. -/
structure FormErrors where
  name : Option String := none
  age : Option String := none
  city : Option String := none
  description : Option String := none
  photo : Option String := none
deriving DecidableEq

/-- The character class of the name regex: letters, whitespace, hyphen,
apostrophe. -/
def isNameChar (c : Char) : Bool :=
  c.isAlpha || c.isWhitespace || c = '-' || c = Char.ofNat 39

/-- The character class of the city regex: letters, whitespace, comma,
period, hyphen. -/
def isCityChar (c : Char) : Bool :=
  c.isAlpha || c.isWhitespace || c = ',' || c = '.' || c = '-'

/-- Embedding of validate (app/add-profile.tsx, first draft, lines 79-136):
computes the whole error record in one pass; the Boolean result of the
source is recovered by `formErrorsOk`.  Number.isInteger is embedded as the
denominator-one test on the parsed rational. -/
def validateForm (form : FormState) (photoUrl : Option String) : FormErrors :=
  let nameValue := jsTrim form.name
  let nameErr :=
    if nameValue = "" then some "Name is required"
    else if nameValue.length < 2 then some "Name must be at least 2 characters"
    else if nameValue.length > 50 then some "Name must be less than 50 characters"
    else if !(nameValue.data.all isNameChar) then
      some "Name can only contain letters, spaces, hyphens, and apostrophes"
    else none
  let ageValue := jsTrim form.age
  let ageErr :=
    if ageValue = "" then some "Age is required"
    else
      match jsNumber ageValue with
      | none => some "Age must be a valid number"
      | some q =>
        if !(q.den == 1) then some "Age must be a whole number"
        else if q < 18 then some "Must be at least 18 years old"
        else if q > 95 then some "Age must be less than 95"
        else none
  let cityValue := jsTrim form.city
  let cityErr :=
    if cityValue = "" then some "City is required"
    else if cityValue.length < 2 then some "City must be at least 2 characters"
    else if cityValue.length > 100 then some "City must be less than 100 characters"
    else if !(cityValue.data.all isCityChar) then
      some "City can only contain letters, spaces, commas, periods, and hyphens"
    else none
  let descValue := jsTrim form.description
  let descErr :=
    if descValue.length > 300 then some "Description must be less than 300 characters"
    else none
  let photoErr :=
    if photoUrl.isNone then some "Profile photo is required" else none
  { name := nameErr, age := ageErr, city := cityErr,
    description := descErr, photo := photoErr }

/-- The Boolean validate returns: no key of the error object carries a
message. -/
def formErrorsOk (e : FormErrors) : Bool :=
  e.name.isNone && e.age.isNone && e.city.isNone && e.description.isNone && e.photo.isNone

/-- The UploadState step tags of add-profile.tsx. -/
inductive UploadStep where
  | idle
  | picking
  | validating
  | uploading
  | success
  | error
deriving DecidableEq

/-- The logged-in user as the screen reads it from context: id, optional
username, verification status. -/
structure AppUser where
  id : String
  username : Option String
  status : String
deriving DecidableEq

/-- The sentinel value serverTimestamp() stored in the createdAt field; the
actual time is assigned by the server. -/
inductive FirestoreTimestamp where
  | serverTimestamp
deriving DecidableEq

/-- The document onSubmit writes to the profiles collection. -/
structure ProfileDoc where
  name : String
  age : Rat
  city : String
  description : String
  profileImageUrl : String
  uploaderUserId : String
  uploaderUsername : String
  greenFlags : Nat
  redFlags : Nat
  commentCount : Nat
  approvalStatus : String
  createdAt : FirestoreTimestamp
deriving DecidableEq

/-- The whole state of the add-profile screen (first draft), plus two ghost
logs: the URLs the Upload Client has returned in this session, and the
documents written to the store, and a ghost counter of Upload Client
invocations. -/
structure ScreenState where
  form : FormState
  errors : FormErrors
  photoPreview : Option String
  photoUrl : Option String
  step : UploadStep
  message : Option String
  isSubmitting : Bool
  uploadedUrls : List String
  uploadCalls : Nat
  writes : List ProfileDoc
deriving DecidableEq

/-- The screen's initial state. -/
def initialScreenState : ScreenState :=
  { form := { name := "", age := "", city := "", description := "" },
    errors := { name := none, age := none, city := none, description := none, photo := none },
    photoPreview := none, photoUrl := none,
    step := .idle, message := none, isSubmitting := false,
    uploadedUrls := [], uploadCalls := 0, writes := [] }

/-- The external outcome of one run of handlePick: permission denied, the
picker threw, the user canceled, no asset came back, or an asset was picked
and the subsequent upload resolved or rejected. -/
inductive PickOutcome where
  | permDenied
  | pickerThrew (msg : String)
  | canceled
  | noAsset
  | picked (uri : String) (uploadOutcome : Except String String)

/-- Embedding of handlePick (app/add-profile.tsx, first draft, lines
170-205), collapsing one asynchronous run into a transition on the final
state.  On a picked asset the preview is set, the photo error cleared and
the Upload Client invoked; on upload success the returned URL is stored; on
upload rejection the state becomes error with the rejection message and the
preview is left in place. -/
def handlePick (o : PickOutcome) (st : ScreenState) : ScreenState :=
  match o with
  | .permDenied => st
  | .pickerThrew m => { st with step := .error, message := some m }
  | .canceled => { st with step := .idle, message := none }
  | .noAsset => { st with step := .error, message := some "No image selected" }
  | .picked uri outcome =>
    let st1 := { st with
      photoPreview := some uri,
      errors := { st.errors with photo := none },
      step := .uploading, message := some "Uploading photo...",
      uploadCalls := st.uploadCalls + 1 }
    match outcome with
    | .ok url =>
      { st1 with photoUrl := some url, step := .idle, message := some "Photo uploaded",
                 uploadedUrls := st1.uploadedUrls ++ [url] }
    | .error m => { st1 with step := .error, message := some m }

/-- A file as the web handlers observe it: byte size, MIME type, decoded
pixel dimensions (`none` when the browser cannot decode it) and the data
URL produced by the FileReader (`none` when reading fails). -/
structure WebFile where
  size : Nat
  mimeType : String
  decoded : Option (Nat × Nat)
  dataUrl : Option String

/-- The external outcome of one change event of the hidden web file input:
no file selected, or a file with its object URL and the upload outcome. -/
inductive WebChangeOutcome where
  | noFile
  | file (f : WebFile) (objectUrl : String) (uploadOutcome : Except String String)

/-- Embedding of the web file input's onChange (app/add-profile.tsx, first
draft, lines 326-344): the file, whatever its dimensions, is previewed and
handed straight to the Upload Client; on rejection the state becomes error
and the preview is left in place. -/
def webInputChange (o : WebChangeOutcome) (st : ScreenState) : ScreenState :=
  match o with
  | .noFile => st
  | .file _ objUrl outcome =>
    let st1 := { st with
      photoPreview := some objUrl,
      step := .uploading,
      message := some "Uploading photo...",
      uploadCalls := st.uploadCalls + 1 }
    match outcome with
    | .ok url =>
      { st1 with
        photoUrl := some url,
        errors := { st1.errors with photo := none },
        step := .idle, message := some "Photo uploaded",
        uploadedUrls := st1.uploadedUrls ++ [url] }
    | .error m => { st1 with step := .error, message := some m }

/-- Embedding of the web file input's onChange of the second draft
(app/add-profile.tsx, second draft, lines 856-872): same upload path, but on
rejection the preview is cleared and an empty rejection message falls back
to a default. -/
def webInputChangeDraft2 (o : WebChangeOutcome) (st : ScreenState) : ScreenState :=
  match o with
  | .noFile => st
  | .file _ objUrl outcome =>
    let st1 := { st with
      photoPreview := some objUrl,
      step := .uploading,
      message := some "Uploading photo...",
      uploadCalls := st.uploadCalls + 1 }
    match outcome with
    | .ok url =>
      { st1 with
        photoUrl := some url,
        errors := { st1.errors with photo := none },
        step := .idle, message := none,
        uploadedUrls := st1.uploadedUrls ++ [url] }
    | .error m =>
      { st1 with
        step := .error,
        message := some (if m = "" then "Upload failed" else m),
        photoPreview := none }

/-- The document built and written by onSubmit when every precondition
holds (app/add-profile.tsx, first draft, lines 234-260).  The age is
Number(form.age.trim()); the getD 0 default stands for the NaN of a failed
parse, which the preceding validation makes unreachable. -/
def mkProfileDoc (user : AppUser) (form : FormState) (photoUrl : String) : ProfileDoc :=
  { name := sanitizeField form.name,
    age := (jsNumber (jsTrim form.age)).getD 0,
    city := sanitizeField form.city,
    description := sanitizeField form.description,
    profileImageUrl := photoUrl,
    uploaderUserId := user.id,
    uploaderUsername := user.username.getD "",
    greenFlags := 0, redFlags := 0, commentCount := 0,
    approvalStatus := "pending",
    createdAt := .serverTimestamp }

/-- Embedding of onSubmit (app/add-profile.tsx, first draft, lines 207-271)
up to the issuing of the document write: the user gate (present id,
non-empty username, approved status), the validation gate, the photo-URL
gate, then the sanitized write.  The asynchronous body runs synchronously
up to the awaited write, so the submitting flag is set and the write issued
within this same transition; `submitResolve` finishes the run. -/
def submitPress (u : Option AppUser) (st : ScreenState) : ScreenState :=
  match u with
  | none => st
  | some user =>
    if user.id = "" then st
    else if user.username.getD "" = "" ∨ user.status ≠ "approved_username_assigned" then st
    else
      let errs := validateForm st.form st.photoUrl
      if !(formErrorsOk errs) then { st with errors := errs }
      else
        match st.photoUrl with
        | none => { st with errors := { errs with photo := some "Profile photo is required" } }
        | some purl =>
          { st with errors := errs, isSubmitting := true,
                    step := .uploading, message := some "Creating profile...",
                    writes := st.writes ++ [mkProfileDoc user st.form purl] }

/-- Embedding of the tail of onSubmit after the awaited write resolves:
success or error state, and the submitting flag dropped (the finally
block). -/
def submitResolve (ok : Bool) (errMsg : String) (st : ScreenState) : ScreenState :=
  if ok then { st with step := .success, message := some "Profile created", isSubmitting := false }
  else { st with step := .error, message := some errMsg, isSubmitting := false }

/-- Embedding of the disabled memo (app/add-profile.tsx, first draft, line
273): the submit control is disabled while picking or while a submission is
in flight. -/
def screenDisabled (st : ScreenState) : Bool :=
  st.step == .picking || st.isSubmitting

/-- A press of the submit control: a disabled control does not fire
onSubmit. -/
def pressSubmit (u : Option AppUser) (st : ScreenState) : ScreenState :=
  if screenDisabled st then st else submitPress u st

/-- The four editable field keys. -/
inductive FieldKey where
  | nameF
  | ageF
  | cityF
  | descriptionF

/-- Update one form field. -/
def setField (k : FieldKey) (v : String) (f : FormState) : FormState :=
  match k with
  | .nameF => { f with name := v }
  | .ageF => { f with age := v }
  | .cityF => { f with city := v }
  | .descriptionF => { f with description := v }

/-- Embedding of onChange: the edited field's error is cleared. -/
def clearFieldError (k : FieldKey) (e : FormErrors) : FormErrors :=
  match k with
  | .nameF => { e with name := none }
  | .ageF => { e with age := none }
  | .cityF => { e with city := none }
  | .descriptionF => { e with description := none }

/-- Embedding of the onChange handler for a text field. -/
def editField (k : FieldKey) (v : String) (st : ScreenState) : ScreenState :=
  { st with form := setField k v st.form, errors := clearFieldError k st.errors }

/-- The events that drive the screen. -/
inductive ScreenEvent where
  | edit (k : FieldKey) (v : String)
  | pick (o : PickOutcome)
  | webChange (o : WebChangeOutcome)
  | submitClick (u : Option AppUser)
  | writeResolved (ok : Bool) (errMsg : String)

/-- One step of the screen's event loop. -/
def screenStep (st : ScreenState) (e : ScreenEvent) : ScreenState :=
  match e with
  | .edit k v => editField k v st
  | .pick o => handlePick o st
  | .webChange o => webInputChange o st
  | .submitClick u => pressSubmit u st
  | .writeResolved ok m => submitResolve ok m st

/-- The states the screen can reach from its initial state. -/
inductive ReachableScreen : ScreenState → Prop where
  | start : ReachableScreen initialScreenState
  | next {st : ScreenState} (e : ScreenEvent) :
      ReachableScreen st → ReachableScreen (screenStep st e)

/-- The MIME type allow-list of WebPhotoUpload. -/
def webSupportedFormats : List String :=
  ["image/jpeg", "image/jpg", "image/png", "image/webp"]

/-- Embedding of validateImage (components/WebPhotoUpload.tsx, lines 44-88):
size cap, minimum size, MIME allow-list, then decoded pixel dimensions
within 100x100 to 4000x4000; checks run in order and stop at the first
failure. -/
def validateImage (f : WebFile) : Bool × Option String :=
  if f.size > 5000000 then (false, some "Image too large. Maximum size is 5MB.")
  else if f.size < 1000 then (false, some "Image too small. Please upload a valid photo.")
  else if !(webSupportedFormats.contains (jsToLower f.mimeType)) then
    (false, some "Unsupported format. Please use JPEG, PNG, or WebP.")
  else
    match f.decoded with
    | none => (false, some "Invalid image file. Please try another photo.")
    | some wh =>
      if wh.1 < 100 || wh.2 < 100 then
        (false, some "Image too small. Minimum size is 100x100 pixels.")
      else if wh.1 > 4000 || wh.2 > 4000 then
        (false, some "Image too large. Maximum size is 4000x4000 pixels.")
      else (true, none)

/-- The observable outcome of one run of processFile: the final step of the
component's state, its message, and the pair handed to the onImageSelected
callback when the image is accepted (`none` when the callback is never
invoked, so nothing downstream can upload the image). -/
structure ProcessOutcome where
  step : UploadStep
  message : Option String
  selected : Option (String × String)

/-- Embedding of processFile (components/WebPhotoUpload.tsx, lines 90-132):
a failed validation goes to the error state and the caller is only told the
error; an accepted image is read, base64-stripped and handed to the caller.
A FileReader producing an empty result leaves the component stuck in the
validating state, per the source's truthiness check on the result. -/
def processFile (f : WebFile) (objUrl : String) : ProcessOutcome :=
  match validateImage f with
  | (false, e) => { step := .error, message := e, selected := none }
  | (true, _) =>
    match f.dataUrl with
    | none => { step := .error, message := some "Failed to read image file", selected := none }
    | some result =>
      if result = "" then
        { step := .validating, message := some "Validating image...", selected := none }
      else
        { step := .success, message := some "Image ready",
          selected := some ((result.splitOn ",").getD 1 "", objUrl) }

lemma splitOnChar_ne_nil (sep : Char) (l : List Char) : splitOnChar sep l ≠ [] := by
  induction l with
  | nil => simp [splitOnChar]
  | cons c rest ih =>
    simp only [splitOnChar]
    split
    · exact List.cons_ne_nil _ _
    · split
      · exact List.cons_ne_nil _ _
      · exact List.cons_ne_nil _ _

lemma mem_splitOnChar (sep : Char) (l : List Char) :
    ∀ p ∈ splitOnChar sep l, sep ∉ p := by
  induction l with
  | nil =>
    intro p hp hmem
    simp [splitOnChar] at hp
    subst hp
    simp at hmem
  | cons c rest ih =>
    intro p hp hmem
    simp only [splitOnChar] at hp
    by_cases hc : c = sep
    · rw [if_pos hc] at hp
      rcases List.mem_cons.mp hp with h | h
      · subst h; simp at hmem
      · exact ih p h hmem
    · rw [if_neg hc] at hp
      cases hrec : splitOnChar sep rest with
      | nil => exact absurd hrec (splitOnChar_ne_nil sep rest)
      | cons hh tt =>
        rw [hrec] at hp
        rcases List.mem_cons.mp hp with h | h
        · subst h
          rcases List.mem_cons.mp hmem with h2 | h2
          · exact hc h2.symm
          · exact ih hh (by rw [hrec]; exact List.mem_cons_self hh tt) h2
        · exact ih p (by rw [hrec]; exact List.mem_cons_of_mem hh h) hmem

lemma splitOnChar_single (sep : Char) (p : List Char) (h : sep ∉ p) :
    splitOnChar sep p = [p] := by
  induction p with
  | nil => rfl
  | cons c rest ih =>
    have hc : ¬(c = sep) := fun hcc => h (by rw [hcc]; exact List.mem_cons_self _ _)
    have hrest : sep ∉ rest := fun hm => h (List.mem_cons_of_mem _ hm)
    simp only [splitOnChar, if_neg hc, ih hrest]

lemma splitOnChar_append (sep : Char) (p l : List Char) (h : sep ∉ p) :
    splitOnChar sep (p ++ sep :: l) = p :: splitOnChar sep l := by
  induction p with
  | nil => simp [splitOnChar]
  | cons c rest ih =>
    have hc : ¬(c = sep) := fun hcc => h (by rw [hcc]; exact List.mem_cons_self _ _)
    have hrest : sep ∉ rest := fun hm => h (List.mem_cons_of_mem _ hm)
    show splitOnChar sep (c :: (rest ++ sep :: l)) = (c :: rest) :: splitOnChar sep l
    simp only [splitOnChar, if_neg hc, ih hrest]

lemma splitOnChar_joinSep (sep : Char) (parts : List (List Char))
    (h1 : parts ≠ []) (h2 : ∀ p ∈ parts, sep ∉ p) :
    splitOnChar sep (joinSep sep parts) = parts := by
  induction parts with
  | nil => exact absurd rfl h1
  | cons p rest ih =>
    cases rest with
    | nil => exact splitOnChar_single sep p (h2 p (List.mem_cons_self _ _))
    | cons p2 rest2 =>
      have hj : joinSep sep (p :: p2 :: rest2) = p ++ sep :: joinSep sep (p2 :: rest2) := rfl
      rw [hj, splitOnChar_append sep p _ (h2 p (List.mem_cons_self _ _)),
          ih (List.cons_ne_nil _ _) (fun q hq => h2 q (List.mem_cons_of_mem _ hq))]

lemma joinSep_append_cons (sep : Char) (A B : List (List Char)) (s : List Char)
    (hA : A ≠ []) (hB : B ≠ []) :
    joinSep sep (A ++ s :: B) = joinSep sep A ++ sep :: (s ++ sep :: joinSep sep B) := by
  induction A with
  | nil => exact absurd rfl hA
  | cons a A2 ih =>
    cases A2 with
    | nil =>
      cases B with
      | nil => exact absurd rfl hB
      | cons b B2 => rfl
    | cons a2 A3 =>
      have h1 : joinSep sep ((a :: a2 :: A3) ++ s :: B) =
          a ++ sep :: joinSep sep ((a2 :: A3) ++ s :: B) := rfl
      have h2 : joinSep sep (a :: a2 :: A3) = a ++ sep :: joinSep sep (a2 :: A3) := rfl
      rw [h1, ih (List.cons_ne_nil _ _), h2]
      simp [List.append_assoc]

lemma mem_joinSep (sep : Char) (parts : List (List Char)) (c : Char)
    (h : c ∈ joinSep sep parts) : c = sep ∨ ∃ p ∈ parts, c ∈ p := by
  induction parts with
  | nil => simp [joinSep] at h
  | cons p rest ih =>
    cases rest with
    | nil => exact Or.inr ⟨p, List.mem_cons_self _ _, h⟩
    | cons p2 r2 =>
      have hj : joinSep sep (p :: p2 :: r2) = p ++ sep :: joinSep sep (p2 :: r2) := rfl
      rw [hj] at h
      rcases List.mem_append.mp h with h1 | h1
      · exact Or.inr ⟨p, List.mem_cons_self _ _, h1⟩
      · rcases List.mem_cons.mp h1 with h2 | h2
        · exact Or.inl h2
        · rcases ih h2 with h3 | ⟨q, hq, hcq⟩
          · exact Or.inl h3
          · exact Or.inr ⟨q, List.mem_cons_of_mem _ hq, hcq⟩

lemma digitChar_isDigit (n : Nat) (h : n < 10) : (digitChar n).isDigit = true := by
  interval_cases n <;> decide

lemma natToCharsAux_digits (fuel : Nat) :
    ∀ (n : Nat) (acc : List Char), (∀ c ∈ acc, c.isDigit = true) →
      ∀ c ∈ natToCharsAux fuel n acc, c.isDigit = true := by
  induction fuel with
  | zero => intro n acc hacc c hc; exact hacc c hc
  | succ fuel ih =>
    intro n acc hacc c hc
    by_cases hn : n < 10
    · simp only [natToCharsAux, if_pos hn] at hc
      rcases List.mem_cons.mp hc with h | h
      · subst h; exact digitChar_isDigit n hn
      · exact hacc c h
    · simp only [natToCharsAux, if_neg hn] at hc
      refine ih (n / 10) (digitChar (n % 10) :: acc) ?_ c hc
      intro d hd
      rcases List.mem_cons.mp hd with h | h
      · subst h; exact digitChar_isDigit _ (Nat.mod_lt n (by norm_num))
      · exact hacc d h

lemma slash_not_mem_natToChars (n : Nat) : ('/' : Char) ∉ natToChars n := by
  intro h
  have hd := natToCharsAux_digits (n + 1) n [] (by simp) _ h
  exact absurd hd (by decide)

lemma slash_not_mem_intToChars (i : Int) : ('/' : Char) ∉ intToChars i := by
  unfold intToChars
  split
  · intro h
    rcases List.mem_cons.mp h with h1 | h1
    · exact absurd h1 (by decide)
    · exact slash_not_mem_natToChars _ h1
  · exact slash_not_mem_natToChars _

lemma slash_not_mem_renderNumOrAuto (v : NumOrAuto) :
    ('/' : Char) ∉ renderNumOrAuto v := by
  cases v with
  | auto => decide
  | num n => exact slash_not_mem_intToChars n

lemma slash_not_mem_renderFormat (v : CloudFormat) :
    ('/' : Char) ∉ renderFormat v := by
  cases v <;> decide

lemma slash_not_mem_renderCrop (v : CropMode) :
    ('/' : Char) ∉ renderCrop v := by
  cases v <;> decide

lemma mem_pair {α : Type} (x a b : α) (h : x ∈ [a, b]) : x = a ∨ x = b := by
  rcases List.mem_cons.mp h with h1 | h1
  · exact Or.inl h1
  · exact Or.inr (List.mem_singleton.mp h1)

lemma mem_ite_chunk {α : Type} (b : Prop) [Decidable b] (l : List α) (x : α)
    (h : x ∈ if b then l else []) : x ∈ l := by
  split at h
  · exact h
  · simp at h

lemma mem_cropChunk (o : Option CropMode) (tok : List Char)
    (h : tok ∈ cropChunk o) : ∃ c, tok = "c_".data ++ renderCrop c := by
  cases o with
  | none => simp [cropChunk] at h
  | some c =>
    have h2 : tok ∈ ["c_".data ++ renderCrop c] := h
    exact ⟨c, List.mem_singleton.mp h2⟩

lemma mem_gravityChunk (o : Option String) (tok : List Char)
    (h : tok ∈ gravityChunk o) :
    ∃ g, o = some g ∧ tok = "g_".data ++ g.data := by
  cases o with
  | none => simp [gravityChunk] at h
  | some g =>
    refine ⟨g, rfl, ?_⟩
    have h2 : tok ∈ (if g = "" then [] else ["g_".data ++ g.data]) := h
    split at h2
    · simp at h2
    · exact List.mem_singleton.mp h2

lemma mem_widthChunk (o : Option NumOrAuto) (tok : List Char)
    (h : tok ∈ widthChunk o) : ∃ w, tok = "w_".data ++ renderNumOrAuto w := by
  cases o with
  | none => simp [widthChunk] at h
  | some w =>
    have h2 : tok ∈ (if numOrAutoTruthy w then ["w_".data ++ renderNumOrAuto w] else []) := h
    split at h2
    · exact ⟨w, List.mem_singleton.mp h2⟩
    · simp at h2

lemma mem_heightChunk (o : Option Int) (tok : List Char)
    (h : tok ∈ heightChunk o) : ∃ n, tok = "h_".data ++ intToChars n := by
  cases o with
  | none => simp [heightChunk] at h
  | some n =>
    have h2 : tok ∈ (if n != 0 then ["h_".data ++ intToChars n] else []) := h
    split at h2
    · exact ⟨n, List.mem_singleton.mp h2⟩
    · simp at h2

lemma mem_dprChunk (o : Option NumOrAuto) (tok : List Char)
    (h : tok ∈ dprChunk o) : ∃ d, tok = "dpr_".data ++ renderNumOrAuto d := by
  cases o with
  | none => simp [dprChunk] at h
  | some d =>
    have h2 : tok ∈ (if numOrAutoTruthy d then ["dpr_".data ++ renderNumOrAuto d] else []) := h
    split at h2
    · exact ⟨d, List.mem_singleton.mp h2⟩
    · simp at h2

lemma slash_not_mem_buildTx (opts : CloudinaryTransformOptions)
    (hgrav : ∀ g, opts.gravity = some g → ('/' : Char) ∉ g.data) :
    ∀ tok ∈ buildTx opts, ('/' : Char) ∉ tok := by
  intro tok htok hslash
  simp only [buildTx, List.append_assoc, List.mem_append] at htok
  rcases htok with h | h | h | h | h | h | h
  · rcases mem_pair _ _ _ h with h1 | h1
    · subst h1
      rcases List.mem_append.mp hslash with h2 | h2
      · exact absurd h2 (by decide)
      · exact slash_not_mem_renderNumOrAuto _ h2
    · subst h1
      rcases List.mem_append.mp hslash with h2 | h2
      · exact absurd h2 (by decide)
      · exact slash_not_mem_renderFormat _ h2
  · have h1 := mem_ite_chunk _ _ _ h
    rw [List.mem_singleton.mp h1] at hslash
    exact absurd hslash (by decide)
  · obtain ⟨c, h1⟩ := mem_cropChunk _ _ h
    subst h1
    rcases List.mem_append.mp hslash with h2 | h2
    · exact absurd h2 (by decide)
    · exact slash_not_mem_renderCrop _ h2
  · obtain ⟨g, hg, h1⟩ := mem_gravityChunk _ _ h
    subst h1
    rcases List.mem_append.mp hslash with h2 | h2
    · exact absurd h2 (by decide)
    · exact hgrav g hg h2
  · obtain ⟨w, h1⟩ := mem_widthChunk _ _ h
    subst h1
    rcases List.mem_append.mp hslash with h2 | h2
    · exact absurd h2 (by decide)
    · exact slash_not_mem_renderNumOrAuto _ h2
  · obtain ⟨n, h1⟩ := mem_heightChunk _ _ h
    subst h1
    rcases List.mem_append.mp hslash with h2 | h2
    · exact absurd h2 (by decide)
    · exact slash_not_mem_intToChars _ h2
  · obtain ⟨d, h1⟩ := mem_dprChunk _ _ h
    subst h1
    rcases List.mem_append.mp hslash with h2 | h2
    · exact absurd h2 (by decide)
    · exact slash_not_mem_renderNumOrAuto _ h2

lemma slash_not_mem_txSegment (opts : CloudinaryTransformOptions)
    (hgrav : ∀ g, opts.gravity = some g → ('/' : Char) ∉ g.data) :
    ('/' : Char) ∉ joinSep ',' (buildTx opts) := by
  intro hmem
  rcases mem_joinSep ',' (buildTx opts) '/' hmem with h | ⟨p, hp, hcp⟩
  · exact absurd h (by decide)
  · exact slash_not_mem_buildTx opts hgrav p hp hcp

lemma splitFirstOn_of_append (pat a b : List Char) :
    (splitFirstOn pat (a ++ pat ++ b)).isSome = true := by
  induction a with
  | nil =>
    show (splitFirstOn pat (pat ++ b)).isSome = true
    cases hpb : pat ++ b with
    | nil =>
      obtain ⟨hp, hb⟩ := List.append_eq_nil.mp hpb
      subst hp; subst hb
      decide
    | cons c rest =>
      have hpre : pat.isPrefixOf (pat ++ b) = true := by
        rw [ List.isPrefixOf_iff_prefix]
        exact List.prefix_append pat b
      rw [hpb] at hpre
      simp only [splitFirstOn, if_pos hpre, Option.isSome_some]
  | cons c a2 ih =>
    show (splitFirstOn pat (c :: (a2 ++ pat ++ b))).isSome = true
    simp only [splitFirstOn]
    split
    · simp
    · cases hrec : splitFirstOn pat (a2 ++ pat ++ b) with
      | none => rw [hrec] at ih; simp at ih
      | some v =>
        obtain ⟨v1, v2⟩ := v
        rfl

lemma splitFirstOn_eq_some (pat : List Char) :
    ∀ (l a b : List Char), splitFirstOn pat l = some (a, b) → l = a ++ pat ++ b := by
  intro l
  induction l with
  | nil =>
    intro a b h
    simp only [splitFirstOn] at h
    split at h
    · rename_i hemp
      rw [List.isEmpty_eq_true] at hemp
      rw [Option.some.injEq, Prod.mk.injEq] at h
      obtain ⟨h1, h2⟩ := h
      subst h1; subst h2
      simp [hemp]
    · exact absurd h (by simp)
  | cons c rest ih =>
    intro a b h
    simp only [splitFirstOn] at h
    split at h
    · rename_i hpre
      rw [ List.isPrefixOf_iff_prefix] at hpre
      obtain ⟨t, ht⟩ := hpre
      rw [Option.some.injEq, Prod.mk.injEq] at h
      obtain ⟨h1, h2⟩ := h
      subst h1
      have hd : (c :: rest).drop pat.length = t := by
        rw [← ht, List.drop_left]
      rw [hd] at h2
      subst h2
      simp [← ht]
    · cases hrec : splitFirstOn pat rest with
      | none => rw [hrec] at h; simp at h
      | some v =>
        obtain ⟨a2, b2⟩ := v
        rw [hrec] at h
        have h2 : some (c :: a2, b2) = some (a, b) := h
        rw [Option.some.injEq, Prod.mk.injEq] at h2
        obtain ⟨h3, h4⟩ := h2
        subst h4
        rw [← h3]
        have hrest := ih a2 b2 hrec
        simp [hrest]

lemma strContains_cloudinary_of_res (url : String)
    (h : strContains url "res.cloudinary.com" = true) :
    strContains url "cloudinary.com" = true := by
  unfold strContains at h ⊢
  rw [Option.isSome_iff_exists] at h
  obtain ⟨⟨a, b⟩, hab⟩ := h
  have hsplit := splitFirstOn_eq_some _ _ _ _ hab
  have hdecomp : "res.cloudinary.com".data = "res.".data ++ "cloudinary.com".data := by decide
  rw [hdecomp] at hsplit
  have : url.data = (a ++ "res.".data) ++ "cloudinary.com".data ++ b := by
    rw [hsplit]; simp [List.append_assoc]
  rw [this]
  exact splitFirstOn_of_append _ _ _

lemma findIdx_eq_length_of_not_mem (x : List Char) (l : List (List Char))
    (h : x ∉ l) : l.findIdx (fun p => p == x) = l.length := by
  induction l with
  | nil => rfl
  | cons a rest ih =>
    have ha : ¬(a = x) := fun he => h (he ▸ List.mem_cons_self _ _)
    have hax : (a == x) = false := beq_eq_false_iff_ne.mpr ha
    rw [List.findIdx_cons, hax]
    simp only [cond_false, List.length_cons]
    rw [ih (fun hm => h (List.mem_cons_of_mem _ hm))]

lemma transformCloudinaryUrl_parsed (url : String) (opts : CloudinaryTransformOptions)
    (u : JsUrl) (hne : url ≠ "")
    (hcloud : strContains url "cloudinary.com" = true)
    (hparse : parseUrl url = some u) :
    transformCloudinaryUrl url opts = transformParsed url opts u := by
  unfold transformCloudinaryUrl
  rw [if_neg hne, hcloud, Bool.or_true, Bool.not_true, if_neg Bool.false_ne_true, hparse]

/-- The pathname that `transformParsed` builds when an upload segment is
present: the segments up to and including upload, then the token segment,
then the remaining segments. -/
def splicedPathname (opts : CloudinaryTransformOptions) (u : JsUrl) : List Char :=
  joinSep '/' ((splitOnChar '/' u.pathname).take
      ((splitOnChar '/' u.pathname).findIdx (fun p => p == "upload".data) + 1)) ++
  '/' :: joinSep ',' (buildTx opts) ++
  '/' :: joinSep '/' ((splitOnChar '/' u.pathname).drop
      ((splitOnChar '/' u.pathname).findIdx (fun p => p == "upload".data) + 1))

lemma transformParsed_of_lt (url : String) (opts : CloudinaryTransformOptions)
    (u : JsUrl)
    (hlt : (splitOnChar '/' u.pathname).findIdx (fun p => p == "upload".data) <
        (splitOnChar '/' u.pathname).length) :
    transformParsed url opts u = serializeUrl { u with pathname := splicedPathname opts u } := by
  simp only [transformParsed]
  rw [if_neg (Nat.ne_of_lt hlt)]
  rfl

lemma transformParsed_of_eq (url : String) (opts : CloudinaryTransformOptions)
    (u : JsUrl)
    (heq : (splitOnChar '/' u.pathname).findIdx (fun p => p == "upload".data) =
        (splitOnChar '/' u.pathname).length) :
    transformParsed url opts u = url := by
  simp only [transformParsed]
  rw [if_pos heq]

lemma parseUrl_empty : parseUrl "" = none := by decide

lemma parseUrl_ne_empty (url : String) (u : JsUrl) (h : parseUrl url = some u) :
    url ≠ "" := by
  intro he
  rw [he, parseUrl_empty] at h
  exact Option.noConfusion h

/-- The token list exactly as claim C2 words it: fixed order, quality and
format defaulting to auto, and every other option contributing its token
whenever it is set, only unset options being omitted.  This definition
follows the claim's words, for comparison against the source's `buildTx`. -/
def claimTokensC2 (opts : CloudinaryTransformOptions) : List (List Char) :=
  ["q_".data ++ renderNumOrAuto (opts.quality.getD .auto),
   "f_".data ++ renderFormat (opts.format.getD .auto)]
  ++ (if opts.progressive = some true then ["fl_progressive".data] else [])
  ++ (opts.crop.map (fun c => "c_".data ++ renderCrop c)).toList
  ++ (opts.gravity.map (fun g => "g_".data ++ g.data)).toList
  ++ (opts.width.map (fun w => "w_".data ++ renderNumOrAuto w)).toList
  ++ (opts.height.map (fun n => "h_".data ++ intToChars n)).toList
  ++ (opts.dpr.map (fun d => "dpr_".data ++ renderNumOrAuto d)).toList

/-- The output claim C2 predicts for a well-formed upload URL: exactly the
claim's token segment spliced in as one new path segment immediately after
the upload segment, the rest unchanged.  Again written from the claim's
words, for comparison. -/
def claimTransformC2 (url : String) (opts : CloudinaryTransformOptions) : Option String :=
  match parseUrl url with
  | none => none
  | some u =>
    let parts := splitOnChar '/' u.pathname
    let i := parts.findIdx (fun p => p == "upload".data)
    if i = parts.length then none
    else
      some (serializeUrl { u with
        pathname := joinSep '/'
          (parts.take (i + 1) ++ [joinSep ',' (claimTokensC2 opts)] ++ parts.drop (i + 1)) })

/-- Claim C2 is false as stated: with the set option width zero (a JS-falsy
value), the source omits the w token that the claim's only-unset-options-
omitted rule requires, so the produced URL differs from the claim's
prediction. -/
theorem C2_claim_counterexample :
    transformCloudinaryUrl "https://res.cloudinary.com/demo/image/upload/v1/pic.jpg"
        { width := some (.num 0) } =
      "https://res.cloudinary.com/demo/image/upload/q_auto,f_auto/v1/pic.jpg" ∧
    claimTransformC2 "https://res.cloudinary.com/demo/image/upload/v1/pic.jpg"
        { width := some (.num 0) } =
      some "https://res.cloudinary.com/demo/image/upload/q_auto,f_auto,w_0/v1/pic.jpg" ∧
    some (transformCloudinaryUrl "https://res.cloudinary.com/demo/image/upload/v1/pic.jpg"
        { width := some (.num 0) }) ≠
      claimTransformC2 "https://res.cloudinary.com/demo/image/upload/v1/pic.jpg"
        { width := some (.num 0) } := by
  refine ⟨by decide, by decide, by decide⟩

/-- Claim C2 as amended: for every parsed image-host URL whose path contains
an upload segment that is not the final segment, and every options value
whose gravity contains no slash, the transformer emits the URL whose
pathname is the original segments with exactly one new segment spliced in
immediately after the first upload segment; that segment comma-joins the
tokens of the source's fixed-order rule, under which an option set to a
JS-falsy value (false, zero, the empty string) is omitted like an unset
one.  Splitting the new pathname recovers the original segments around the
single inserted segment, so everything else is unchanged. -/
theorem C2_insert_after_upload (url : String) (opts : CloudinaryTransformOptions)
    (u : JsUrl) (parts : List (List Char)) (i : Nat)
    (hparse : parseUrl url = some u)
    (hcloud : strContains url "cloudinary.com" = true)
    (hparts : parts = splitOnChar '/' u.pathname)
    (hi : i = parts.findIdx (fun p => p == "upload".data))
    (hmem : "upload".data ∈ parts)
    (hnotlast : i + 1 < parts.length)
    (hgrav : ∀ g, opts.gravity = some g → ('/' : Char) ∉ g.data) :
    transformCloudinaryUrl url opts =
      serializeUrl { u with pathname := splicedPathname opts u } ∧
    splicedPathname opts u =
      joinSep '/' (parts.take (i + 1) ++ [joinSep ',' (buildTx opts)] ++ parts.drop (i + 1)) ∧
    splitOnChar '/' (splicedPathname opts u) =
      parts.take (i + 1) ++ [joinSep ',' (buildTx opts)] ++ parts.drop (i + 1) := by
  subst hparts
  subst hi
  have hlt : (splitOnChar '/' u.pathname).findIdx (fun p => p == "upload".data) <
      (splitOnChar '/' u.pathname).length := Nat.lt_of_succ_lt hnotlast
  have hAne : (splitOnChar '/' u.pathname).take
      ((splitOnChar '/' u.pathname).findIdx (fun p => p == "upload".data) + 1) ≠ [] := by
    intro he
    rcases List.take_eq_nil_iff.mp he with h1 | h1
    · omega
    · exact splitOnChar_ne_nil '/' u.pathname h1
  have hBne : (splitOnChar '/' u.pathname).drop
      ((splitOnChar '/' u.pathname).findIdx (fun p => p == "upload".data) + 1) ≠ [] := by
    intro he
    have := List.drop_eq_nil_iff.mp he
    omega
  have hseg : ('/' : Char) ∉ joinSep ',' (buildTx opts) :=
    slash_not_mem_txSegment opts hgrav
  have hsplice : splicedPathname opts u =
      joinSep '/' ((splitOnChar '/' u.pathname).take
          ((splitOnChar '/' u.pathname).findIdx (fun p => p == "upload".data) + 1) ++
        [joinSep ',' (buildTx opts)] ++
        (splitOnChar '/' u.pathname).drop
          ((splitOnChar '/' u.pathname).findIdx (fun p => p == "upload".data) + 1)) := by
    rw [List.append_assoc, List.singleton_append,
        joinSep_append_cons '/' _ _ _ hAne hBne]
    simp [splicedPathname]
  refine ⟨?_, hsplice, ?_⟩
  · rw [transformCloudinaryUrl_parsed url opts u (parseUrl_ne_empty url u hparse) hcloud hparse,
        transformParsed_of_lt url opts u hlt]
  · rw [hsplice]
    rw [splitOnChar_joinSep]
    · intro he
      rw [List.append_assoc, List.singleton_append] at he
      rcases List.append_eq_nil.mp he with ⟨h1, _⟩
      exact hAne h1
    · intro p hp
      rcases List.mem_append.mp hp with hp1 | hp2
      · rcases List.mem_append.mp hp1 with hp3 | hp4
        · exact mem_splitOnChar '/' u.pathname p (List.take_subset _ _ hp3)
        · rw [List.mem_singleton.mp hp4]; exact hseg
      · exact mem_splitOnChar '/' u.pathname p (List.drop_subset _ _ hp2)

/-- Claim C3: transformCloudinaryUrl is total, and is the identity on every
string that does not contain the image host's domain, or that cannot be
parsed as a URL, or whose path has no upload segment. -/
theorem C3_transform_total_identity (url : String) (opts : CloudinaryTransformOptions)
    (h : strContains url "cloudinary.com" = false ∨ parseUrl url = none ∨
      ∃ u, parseUrl url = some u ∧ "upload".data ∉ splitOnChar '/' u.pathname) :
    transformCloudinaryUrl url opts = url := by
  by_cases hne : url = ""
  · unfold transformCloudinaryUrl
    rw [if_pos hne]
  · rcases h with h | h | ⟨u, hu, hmem⟩
    · have hres : strContains url "res.cloudinary.com" = false := by
        cases hr : strContains url "res.cloudinary.com"
        · rfl
        · have h2 := strContains_cloudinary_of_res url hr
          rw [h] at h2
          exact absurd h2 (by decide)
      unfold transformCloudinaryUrl
      rw [if_neg hne, hres, h, Bool.or_false, Bool.not_false, if_pos rfl]
    · unfold transformCloudinaryUrl
      rw [if_neg hne, h]
      split
      · rfl
      · rfl
    · have hidx := findIdx_eq_length_of_not_mem "upload".data (splitOnChar '/' u.pathname) hmem
      unfold transformCloudinaryUrl
      rw [if_neg hne, hu]
      split
      · rfl
      · show transformParsed url opts u = url
        exact transformParsed_of_eq url opts u hidx

/-- Witness for C3 at a concrete non-Cloudinary URL. -/
theorem C3_transform_total_identity_witness :
    strContains "https://example.com/a.jpg" "cloudinary.com" = false ∧
    transformCloudinaryUrl "https://example.com/a.jpg" defaultUploadTransform =
      "https://example.com/a.jpg" :=
  ⟨by decide, C3_transform_total_identity "https://example.com/a.jpg" defaultUploadTransform
    (Or.inl (by decide))⟩

/-- Claim C1 is false as stated: an ok response whose secure_url field is
present but empty is rejected by the source (the JS check if not url is
true for the empty string), it does not resolve to the transformed
secure_url; and the transformer maps the empty string to itself, so the
claimed resolution value would moreover be the raw secure_url. -/
theorem C1_claim_counterexample :
    uploadResponseResult { ok := true, status := 200, errText := "", secureUrl := some "" } =
      Except.error "Upload succeeded but no secure_url returned" ∧
    uploadResponseResult { ok := true, status := 200, errText := "", secureUrl := some "" } ≠
      Except.ok (transformCloudinaryUrl "" defaultUploadTransform) ∧
    transformCloudinaryUrl "" defaultUploadTransform = "" :=
  ⟨rfl, fun h => Except.noConfusion h, rfl⟩

/-- Claim C1 as amended: whenever the upload endpoint's response is ok and
carries a non-empty (JS-truthy) secure_url, uploadImageToCloudinary
resolves to the transformer applied to that secure_url with the fixed
default options, never the raw secure_url (an empty-string secure_url is
rejected like a missing one); at the spec's concrete secure_url the result
is the URL with the segment
q_auto,f_auto,fl_progressive,c_fill,g_auto,w_1080,dpr_auto injected
immediately after the upload path segment. -/
theorem C1_upload_resolves_transformed :
    (∀ (r : UploadHttpResponse) (url : String), r.ok = true → r.secureUrl = some url →
      url ≠ "" →
      uploadResponseResult r =
        Except.ok (transformCloudinaryUrl url defaultUploadTransform)) ∧
    transformCloudinaryUrl
        "https://res.cloudinary.com/df4tx4erp/image/upload/v1/x.jpg" defaultUploadTransform =
      "https://res.cloudinary.com/df4tx4erp/image/upload/q_auto,f_auto,fl_progressive,c_fill,g_auto,w_1080,dpr_auto/v1/x.jpg" ∧
    transformCloudinaryUrl
        "https://res.cloudinary.com/df4tx4erp/image/upload/v1/x.jpg" defaultUploadTransform ≠
      "https://res.cloudinary.com/df4tx4erp/image/upload/v1/x.jpg" ∧
    splitOnChar '/' (transformCloudinaryUrl
        "https://res.cloudinary.com/df4tx4erp/image/upload/v1/x.jpg"
        defaultUploadTransform).data =
      ["https:".data, [], "res.cloudinary.com".data, "df4tx4erp".data, "image".data,
       "upload".data,
       "q_auto,f_auto,fl_progressive,c_fill,g_auto,w_1080,dpr_auto".data,
       "v1".data, "x.jpg".data] := by
  refine ⟨?_, by decide, by decide, by decide⟩
  intro r url hok hurl hne
  unfold uploadResponseResult
  rw [hok, Bool.not_true, if_neg Bool.false_ne_true, hurl]
  show (if url = "" then Except.error "Upload succeeded but no secure_url returned"
    else Except.ok (transformCloudinaryUrl url defaultUploadTransform)) =
    Except.ok (transformCloudinaryUrl url defaultUploadTransform)
  rw [if_neg hne]

/-- Witness for C1 at a concrete ok response. -/
theorem C1_upload_resolves_transformed_witness :
    uploadResponseResult
      { ok := true, status := 200, errText := "",
        secureUrl := some "https://res.cloudinary.com/df4tx4erp/image/upload/v1/x.jpg" } =
    Except.ok
      "https://res.cloudinary.com/df4tx4erp/image/upload/q_auto,f_auto,fl_progressive,c_fill,g_auto,w_1080,dpr_auto/v1/x.jpg" := by
  have h := C1_upload_resolves_transformed.1
    { ok := true, status := 200, errText := "",
      secureUrl := some "https://res.cloudinary.com/df4tx4erp/image/upload/v1/x.jpg" }
    "https://res.cloudinary.com/df4tx4erp/image/upload/v1/x.jpg" rfl rfl (by decide)
  rw [h, C1_upload_resolves_transformed.2.1]

/-- Witness for the amended C2 at a concrete upload URL with the default
options. -/
theorem C2_insert_after_upload_witness :
    parseUrl "https://res.cloudinary.com/demo/image/upload/v1/pic.jpg" =
      some { scheme := "https".data, host := "res.cloudinary.com".data,
             pathname := "/demo/image/upload/v1/pic.jpg".data, search := [], hash := [] } ∧
    transformCloudinaryUrl "https://res.cloudinary.com/demo/image/upload/v1/pic.jpg"
        defaultUploadTransform =
      serializeUrl
        { scheme := "https".data, host := "res.cloudinary.com".data,
          pathname := splicedPathname defaultUploadTransform
            { scheme := "https".data, host := "res.cloudinary.com".data,
              pathname := "/demo/image/upload/v1/pic.jpg".data, search := [], hash := [] },
          search := [], hash := [] } := by
  refine ⟨by decide, ?_⟩
  have h := C2_insert_after_upload "https://res.cloudinary.com/demo/image/upload/v1/pic.jpg"
    defaultUploadTransform
    { scheme := "https".data, host := "res.cloudinary.com".data,
      pathname := "/demo/image/upload/v1/pic.jpg".data, search := [], hash := [] }
    (splitOnChar '/' "/demo/image/upload/v1/pic.jpg".data) 3
    (by decide) (by decide) rfl (by decide) (by decide) (by decide)
    (by intro g hg; injection hg with h2; subst h2; decide)
  exact h.1

/-- The user gate of onSubmit: a present id, a non-empty username and the
approved status. -/
def userGate (u : Option AppUser) : Bool :=
  match u with
  | none => false
  | some user =>
    user.id != "" && user.username.getD "" != "" &&
      user.status == "approved_username_assigned"

/-- The stored photo URL is absent or is one of the URLs the Upload Client
has returned in this session. -/
def photoUrlBacked (st : ScreenState) : Prop :=
  st.photoUrl = none ∨ ∃ url, st.photoUrl = some url ∧ url ∈ st.uploadedUrls

lemma submitPress_frame (u : Option AppUser) (st : ScreenState) :
    (submitPress u st).photoUrl = st.photoUrl ∧
    (submitPress u st).uploadedUrls = st.uploadedUrls := by
  cases u with
  | none => exact ⟨rfl, rfl⟩
  | some user =>
    simp only [submitPress]
    split
    · exact ⟨rfl, rfl⟩
    · split
      · exact ⟨rfl, rfl⟩
      · split
        · exact ⟨rfl, rfl⟩
        · split
          · exact ⟨rfl, rfl⟩
          · exact ⟨rfl, rfl⟩

lemma photoUrlBacked_of_frame (st st2 : ScreenState)
    (h1 : st2.photoUrl = st.photoUrl) (h2 : st2.uploadedUrls = st.uploadedUrls)
    (h : photoUrlBacked st) : photoUrlBacked st2 := by
  unfold photoUrlBacked at h ⊢
  rw [h1, h2]
  exact h

lemma photoUrlBacked_step (st : ScreenState) (e : ScreenEvent)
    (ih : photoUrlBacked st) : photoUrlBacked (screenStep st e) := by
  cases e with
  | edit k v => exact ih
  | pick o =>
    cases o with
    | permDenied => exact ih
    | pickerThrew m => exact ih
    | canceled => exact ih
    | noAsset => exact ih
    | picked uri outcome =>
      cases outcome with
      | ok url =>
        exact Or.inr ⟨url, rfl, List.mem_append_right _ (List.mem_singleton.mpr rfl)⟩
      | error m => exact ih
  | webChange o =>
    cases o with
    | noFile => exact ih
    | file f objUrl outcome =>
      cases outcome with
      | ok url =>
        exact Or.inr ⟨url, rfl, List.mem_append_right _ (List.mem_singleton.mpr rfl)⟩
      | error m => exact ih
  | submitClick uu =>
    show photoUrlBacked (pressSubmit uu st)
    unfold pressSubmit
    split
    · exact ih
    · exact photoUrlBacked_of_frame st _ (submitPress_frame uu st).1
        (submitPress_frame uu st).2 ih
  | writeResolved ok m =>
    show photoUrlBacked (submitResolve ok m st)
    unfold submitResolve
    split
    · exact ih
    · exact ih

lemma validateForm_photo_none (f : FormState) :
    (validateForm f none).photo = some "Profile photo is required" := rfl

lemma formErrorsOk_photo_some (e : FormErrors) (h : e.photo.isSome = true) :
    formErrorsOk e = false := by
  rcases e with ⟨n, a, c, d, p⟩
  cases p with
  | none => simp at h
  | some msg => simp [formErrorsOk]

lemma submitPress_noPhoto (st : ScreenState) (u : Option AppUser)
    (hp : st.photoUrl = none) :
    (submitPress u st).writes = st.writes ∧
    (userGate u = true → ((submitPress u st).errors.photo).isSome = true) := by
  have hform : (validateForm st.form st.photoUrl).photo = some "Profile photo is required" := by
    rw [hp]
    exact validateForm_photo_none st.form
  have hok : formErrorsOk (validateForm st.form st.photoUrl) = false :=
    formErrorsOk_photo_some _ (by rw [hform]; rfl)
  cases u with
  | none =>
    refine ⟨rfl, fun hg => ?_⟩
    simp [userGate] at hg
  | some user =>
    simp only [submitPress]
    by_cases h1 : user.id = ""
    · rw [if_pos h1]
      refine ⟨rfl, fun hg => ?_⟩
      have hg2 : (user.id != "" && user.username.getD "" != "" &&
          user.status == "approved_username_assigned") = true := hg
      rw [h1] at hg2
      simp at hg2
    · rw [if_neg h1]
      by_cases h2 : user.username.getD "" = "" ∨ user.status ≠ "approved_username_assigned"
      · rw [if_pos h2]
        refine ⟨rfl, fun hg => ?_⟩
        have hg2 : (user.id != "" && user.username.getD "" != "" &&
            user.status == "approved_username_assigned") = true := hg
        rcases h2 with h2 | h2
        · rw [h2] at hg2
          simp at hg2
        · rw [beq_eq_false_iff_ne.mpr h2] at hg2
          simp at hg2
      · rw [if_neg h2, hok, Bool.not_false, if_pos rfl]
        refine ⟨rfl, fun _ => ?_⟩
        rw [hform]
        rfl

/-- Claim C4: in every reachable screen state the stored photo URL is absent
or was previously returned by the Upload Client, and with no photo URL
onSubmit writes nothing to the store and, when the user gate passes,
records a photo field error. -/
theorem C4_photo_url_provenance (st : ScreenState) (h : ReachableScreen st) :
    photoUrlBacked st ∧
    (st.photoUrl = none → ∀ u : Option AppUser,
      (submitPress u st).writes = st.writes ∧
      (userGate u = true → ((submitPress u st).errors.photo).isSome = true)) := by
  constructor
  · induction h with
    | start => exact Or.inl rfl
    | next e hst ih => exact photoUrlBacked_step _ e ih
  · intro hp u
    exact submitPress_noPhoto st u hp

/-- Witness for C4 at the initial state with a verified user. -/
theorem C4_photo_url_provenance_witness :
    photoUrlBacked initialScreenState ∧
    (submitPress (some { id := "u1", username := some "neb", status := "approved_username_assigned" })
        initialScreenState).writes = initialScreenState.writes ∧
    ((submitPress (some { id := "u1", username := some "neb", status := "approved_username_assigned" })
        initialScreenState).errors.photo).isSome = true := by
  have h := C4_photo_url_provenance initialScreenState ReachableScreen.start
  have h2 := h.2 rfl
    (some { id := "u1", username := some "neb", status := "approved_username_assigned" })
  exact ⟨h.1, h2.1, h2.2 (by decide)⟩

lemma validateForm_age_isSome (form : FormState) (photoUrl : Option String)
    (h : jsTrim form.age = "" ∨ jsNumber (jsTrim form.age) = none ∨
      ∃ q : Rat, jsNumber (jsTrim form.age) = some q ∧ (q.den ≠ 1 ∨ q < 18 ∨ 95 < q)) :
    ((validateForm form photoUrl).age).isSome = true := by
  have hage : (validateForm form photoUrl).age =
      (if jsTrim form.age = "" then some "Age is required"
       else
         match jsNumber (jsTrim form.age) with
         | none => some "Age must be a valid number"
         | some q =>
           if !(q.den == 1) then some "Age must be a whole number"
           else if q < 18 then some "Must be at least 18 years old"
           else if q > 95 then some "Age must be less than 95"
           else none) := rfl
  rw [hage]
  by_cases hemp : jsTrim form.age = ""
  · rw [if_pos hemp]
    rfl
  · rw [if_neg hemp]
    rcases h with h | h | ⟨q, hq, hbad⟩
    · exact absurd h hemp
    · rw [h]
      rfl
    · rw [hq]
      show (if !(q.den == 1) then some "Age must be a whole number"
        else if q < 18 then some "Must be at least 18 years old"
        else if q > 95 then some "Age must be less than 95"
        else none).isSome = true
      rcases hbad with hb | hb | hb
      · rw [beq_eq_false_iff_ne.mpr hb]
        rfl
      · cases hden : q.den == 1 with
        | false => rfl
        | true => simp [hb]
      · cases hden : q.den == 1 with
        | false => rfl
        | true =>
          have h18 : ¬(q < 18) := by linarith
          simp [h18, hb]

lemma formErrorsOk_age_some (e : FormErrors) (h : e.age.isSome = true) :
    formErrorsOk e = false := by
  rcases e with ⟨n, a, c, d, p⟩
  cases a with
  | none => simp at h
  | some msg => simp [formErrorsOk]

lemma submitPress_writes_invalid (st : ScreenState) (u : Option AppUser)
    (hok : formErrorsOk (validateForm st.form st.photoUrl) = false) :
    (submitPress u st).writes = st.writes := by
  cases u with
  | none => rfl
  | some user =>
    simp only [submitPress]
    split
    · rfl
    · split
      · rfl
      · rw [hok, Bool.not_false, if_pos rfl]

/-- Claim C5: an empty, non-numeric, non-integer or out-of-range (18-95) age
field makes the validator record an age error and fail, and onSubmit
performs no write to the document store. -/
theorem C5_age_validation_blocks (form : FormState) (photoUrl : Option String)
    (h : jsTrim form.age = "" ∨ jsNumber (jsTrim form.age) = none ∨
      ∃ q : Rat, jsNumber (jsTrim form.age) = some q ∧ (q.den ≠ 1 ∨ q < 18 ∨ 95 < q)) :
    (((validateForm form photoUrl).age).isSome = true ∧
     formErrorsOk (validateForm form photoUrl) = false) ∧
    ∀ (st : ScreenState) (u : Option AppUser), st.form = form →
      (submitPress u st).writes = st.writes := by
  have hage := validateForm_age_isSome form photoUrl h
  refine ⟨⟨hage, formErrorsOk_age_some _ hage⟩, ?_⟩
  intro st u hf
  apply submitPress_writes_invalid
  rw [hf]
  exact formErrorsOk_age_some _ (validateForm_age_isSome form st.photoUrl h)

/-- Witness for C5 with age 17 and the submit blocked. -/
theorem C5_age_validation_blocks_witness :
    ((validateForm { name := "Al", age := "17", city := "NY", description := "" }
        none).age).isSome = true ∧
    formErrorsOk (validateForm { name := "Al", age := "17", city := "NY", description := "" }
        none) = false ∧
    (submitPress
        (some { id := "u1", username := some "neb", status := "approved_username_assigned" })
        { initialScreenState with
          form := { name := "Al", age := "17", city := "NY", description := "" } }).writes =
      [] := by
  have h := C5_age_validation_blocks
    { name := "Al", age := "17", city := "NY", description := "" } none
    (Or.inr (Or.inr ⟨17, by decide, Or.inr (Or.inl (by decide))⟩))
  exact ⟨h.1.1, h.1.2,
    h.2 { initialScreenState with
          form := { name := "Al", age := "17", city := "NY", description := "" } }
      (some { id := "u1", username := some "neb", status := "approved_username_assigned" }) rfl⟩

lemma submitPress_success (st : ScreenState) (user : AppUser) (purl : String)
    (hid : user.id ≠ "") (hun : user.username.getD "" ≠ "")
    (hst : user.status = "approved_username_assigned")
    (hok : formErrorsOk (validateForm st.form st.photoUrl) = true)
    (hp : st.photoUrl = some purl) :
    submitPress (some user) st =
      { st with errors := validateForm st.form st.photoUrl,
                isSubmitting := true, step := .uploading,
                message := some "Creating profile...",
                writes := st.writes ++ [mkProfileDoc user st.form purl] } := by
  simp only [submitPress]
  rw [if_neg hid, if_neg (not_or.mpr ⟨hun, fun hne => hne hst⟩), hok, Bool.not_true,
      if_neg Bool.false_ne_true, hp]

/-- Claim C6: with every submission precondition satisfied, onSubmit issues
exactly one write whose payload carries the trimmed and whitespace-collapsed
name, city and description, the age converted to a number, the stored
upload URL, zeroed counters, the approval status forced to pending, and the
server-assigned timestamp sentinel. -/
theorem C6_submit_payload (st : ScreenState) (user : AppUser) (purl : String)
    (hid : user.id ≠ "") (hun : user.username.getD "" ≠ "")
    (hst : user.status = "approved_username_assigned")
    (hok : formErrorsOk (validateForm st.form st.photoUrl) = true)
    (hp : st.photoUrl = some purl) :
    (submitPress (some user) st).writes =
      st.writes ++
        [{ name := sanitizeField st.form.name,
           age := (jsNumber (jsTrim st.form.age)).getD 0,
           city := sanitizeField st.form.city,
           description := sanitizeField st.form.description,
           profileImageUrl := purl,
           uploaderUserId := user.id,
           uploaderUsername := user.username.getD "",
           greenFlags := 0, redFlags := 0, commentCount := 0,
           approvalStatus := "pending",
           createdAt := FirestoreTimestamp.serverTimestamp }] ∧
    (submitPress (some user) st).isSubmitting = true := by
  rw [submitPress_success st user purl hid hun hst hok hp]
  exact ⟨rfl, rfl⟩

/-- Witness for C6 at a concrete valid form. -/
theorem C6_submit_payload_witness :
    formErrorsOk (validateForm { name := "Al", age := "25", city := "NY", description := "" }
      (some "https://res.cloudinary.com/x/image/upload/u.jpg")) = true ∧
    (submitPress
        (some { id := "u1", username := some "neb", status := "approved_username_assigned" })
        { initialScreenState with
          form := { name := "Al", age := "25", city := "NY", description := "" },
          photoUrl := some "https://res.cloudinary.com/x/image/upload/u.jpg" }).writes =
      [] ++
        [{ name := sanitizeField "Al",
           age := (jsNumber (jsTrim "25")).getD 0,
           city := sanitizeField "NY",
           description := sanitizeField "",
           profileImageUrl := "https://res.cloudinary.com/x/image/upload/u.jpg",
           uploaderUserId := "u1",
           uploaderUsername := "neb",
           greenFlags := 0, redFlags := 0, commentCount := 0,
           approvalStatus := "pending",
           createdAt := FirestoreTimestamp.serverTimestamp }] := by
  refine ⟨by decide, ?_⟩
  exact (C6_submit_payload
    { initialScreenState with
      form := { name := "Al", age := "25", city := "NY", description := "" },
      photoUrl := some "https://res.cloudinary.com/x/image/upload/u.jpg" }
    { id := "u1", username := some "neb", status := "approved_username_assigned" }
    "https://res.cloudinary.com/x/image/upload/u.jpg"
    (by decide) (by decide) rfl (by decide) rfl).1

/-- Claim C9: a submission in flight or an acquisition in the picking phase
disables the submit control, and pressing submit twice in a row from an
enabled, fully valid state issues exactly one document write: the first
press sets the submitting flag, which disables the control, so the second
press is a no-op. -/
theorem C9_submit_disabled_guard :
    (∀ st : ScreenState, st.isSubmitting = true → screenDisabled st = true) ∧
    (∀ st : ScreenState, st.step = UploadStep.picking → screenDisabled st = true) ∧
    (∀ (st : ScreenState) (user : AppUser) (purl : String),
      screenDisabled st = false → user.id ≠ "" → user.username.getD "" ≠ "" →
      user.status = "approved_username_assigned" →
      formErrorsOk (validateForm st.form st.photoUrl) = true →
      st.photoUrl = some purl →
      (pressSubmit (some user) st).isSubmitting = true ∧
      screenDisabled (pressSubmit (some user) st) = true ∧
      pressSubmit (some user) (pressSubmit (some user) st) = pressSubmit (some user) st ∧
      (pressSubmit (some user) (pressSubmit (some user) st)).writes.length =
        st.writes.length + 1) := by
  refine ⟨?_, ?_, ?_⟩
  · intro st h
    unfold screenDisabled
    rw [h, Bool.or_true]
  · intro st h
    unfold screenDisabled
    rw [h]
    simp
  · intro st user purl hd hid hun hstt hok hp
    have h1 : pressSubmit (some user) st = submitPress (some user) st := by
      unfold pressSubmit
      rw [hd, if_neg Bool.false_ne_true]
    have h2 := submitPress_success st user purl hid hun hstt hok hp
    have hd2 : screenDisabled (submitPress (some user) st) = true := by
      rw [h2]
      unfold screenDisabled
      rw [Bool.or_true]
    have hnoop : pressSubmit (some user) (submitPress (some user) st) =
        submitPress (some user) st := by
      unfold pressSubmit
      rw [hd2, if_pos rfl]
    refine ⟨?_, ?_, ?_, ?_⟩
    · rw [h1, h2]
    · rw [h1]
      exact hd2
    · rw [h1, hnoop]
    · rw [h1, hnoop, h2]
      simp

/-- Witness for C9 at a concrete enabled valid state. -/
theorem C9_submit_disabled_guard_witness :
    screenDisabled
      { initialScreenState with
        form := { name := "Al", age := "25", city := "NY", description := "" },
        photoUrl := some "https://res.cloudinary.com/x/image/upload/u.jpg" } = false ∧
    (pressSubmit
        (some { id := "u1", username := some "neb", status := "approved_username_assigned" })
        (pressSubmit
          (some { id := "u1", username := some "neb", status := "approved_username_assigned" })
          { initialScreenState with
            form := { name := "Al", age := "25", city := "NY", description := "" },
            photoUrl := some "https://res.cloudinary.com/x/image/upload/u.jpg" })).writes.length =
      ({ initialScreenState with
          form := { name := "Al", age := "25", city := "NY", description := "" },
          photoUrl := some "https://res.cloudinary.com/x/image/upload/u.jpg"
        } : ScreenState).writes.length + 1 := by
  refine ⟨by decide, ?_⟩
  exact (C9_submit_disabled_guard.2.2
    { initialScreenState with
      form := { name := "Al", age := "25", city := "NY", description := "" },
      photoUrl := some "https://res.cloudinary.com/x/image/upload/u.jpg" }
    { id := "u1", username := some "neb", status := "approved_username_assigned" }
    "https://res.cloudinary.com/x/image/upload/u.jpg"
    (by decide) (by decide) (by decide) rfl (by decide) rfl).2.2.2

/-- Claim C7 is false as stated for the add-profile screen's own web file
input, one of the claim's cited sources: a decoded 5000x3000 image, far
outside the 100-4000 range, is handed straight to the Upload Client (one
upload call is issued) and the state ends idle, not error. -/
theorem C7_claim_counterexample :
    (webInputChange
      (.file { size := 50000, mimeType := "image/png", decoded := some (5000, 3000),
               dataUrl := some "data:image/png;base64,AAAA" }
        "blob:preview-1"
        (.ok "https://res.cloudinary.com/df4tx4erp/image/upload/v1/big.jpg"))
      initialScreenState).uploadCalls = 1 ∧
    (webInputChange
      (.file { size := 50000, mimeType := "image/png", decoded := some (5000, 3000),
               dataUrl := some "data:image/png;base64,AAAA" }
        "blob:preview-1"
        (.ok "https://res.cloudinary.com/df4tx4erp/image/upload/v1/big.jpg"))
      initialScreenState).step = UploadStep.idle ∧
    (webInputChange
      (.file { size := 50000, mimeType := "image/png", decoded := some (5000, 3000),
               dataUrl := some "data:image/png;base64,AAAA" }
        "blob:preview-1"
        (.ok "https://res.cloudinary.com/df4tx4erp/image/upload/v1/big.jpg"))
      initialScreenState).step ≠ UploadStep.error :=
  ⟨rfl, rfl, by decide⟩

lemma validateImage_bad_dims (f : WebFile) (w h : Nat)
    (hdec : f.decoded = some (w, h))
    (hbad : w < 100 ∨ h < 100 ∨ 4000 < w ∨ 4000 < h) :
    (validateImage f).1 = false ∧ ((validateImage f).2).isSome = true := by
  unfold validateImage
  split
  · exact ⟨rfl, rfl⟩
  · split
    · exact ⟨rfl, rfl⟩
    · split
      · exact ⟨rfl, rfl⟩
      · rw [hdec]
        show (if (w < 100 || h < 100 : Bool) then
            ((false : Bool), some "Image too small. Minimum size is 100x100 pixels.")
          else if (w > 4000 || h > 4000 : Bool) then
            ((false : Bool), some "Image too large. Maximum size is 4000x4000 pixels.")
          else ((true : Bool), (none : Option String))).1 = false ∧
          (if (w < 100 || h < 100 : Bool) then
            ((false : Bool), some "Image too small. Minimum size is 100x100 pixels.")
          else if (w > 4000 || h > 4000 : Bool) then
            ((false : Bool), some "Image too large. Maximum size is 4000x4000 pixels.")
          else ((true : Bool), (none : Option String))).2.isSome = true
        split
        · exact ⟨rfl, rfl⟩
        · split
          · exact ⟨rfl, rfl⟩
          · rename_i hsmall hlarge
            exfalso
            simp only [Bool.or_eq_true, decide_eq_true_eq, not_or] at hsmall hlarge
            rcases hbad with hb | hb | hb | hb <;> omega

lemma processFile_invalid (f : WebFile) (objUrl : String)
    (hv : (validateImage f).1 = false) :
    (processFile f objUrl).step = UploadStep.error ∧
    (processFile f objUrl).message = (validateImage f).2 ∧
    (processFile f objUrl).selected = none := by
  unfold processFile
  cases hval : validateImage f with
  | mk b e =>
    rw [hval] at hv
    have hb : b = false := hv
    subst hb
    exact ⟨rfl, rfl, rfl⟩

/-- Claim C7 as amended: in the WebPhotoUpload component's pipeline, any
file whose decoded pixel dimensions fall outside 100x100 to 4000x4000 ends
processFile in the error state with a message and is never delivered to the
onImageSelected callback, so nothing downstream can upload it; the
add-profile screen's inline web file input, by contrast, performs no
dimension validation at all and uploads regardless. -/
theorem C7_dimension_validation (f : WebFile) (objUrl : String) (w h : Nat)
    (hdec : f.decoded = some (w, h))
    (hbad : w < 100 ∨ h < 100 ∨ 4000 < w ∨ 4000 < h) :
    (processFile f objUrl).step = UploadStep.error ∧
    ((processFile f objUrl).message).isSome = true ∧
    (processFile f objUrl).selected = none := by
  have h1 := validateImage_bad_dims f w h hdec hbad
  have h2 := processFile_invalid f objUrl h1.1
  refine ⟨h2.1, ?_, h2.2.2⟩
  rw [h2.2.1]
  exact h1.2

/-- Witness for the amended C7 at a 50x500 image. -/
theorem C7_dimension_validation_witness :
    (processFile
      { size := 50000, mimeType := "image/jpeg", decoded := some (50, 500),
        dataUrl := some "data:image/jpeg;base64,AAAA" } "blob:p").step = UploadStep.error ∧
    (processFile
      { size := 50000, mimeType := "image/jpeg", decoded := some (50, 500),
        dataUrl := some "data:image/jpeg;base64,AAAA" } "blob:p").selected = none := by
  have h := C7_dimension_validation
    { size := 50000, mimeType := "image/jpeg", decoded := some (50, 500),
      dataUrl := some "data:image/jpeg;base64,AAAA" } "blob:p" 50 500 rfl
    (Or.inl (by decide))
  exact ⟨h.1, h.2.2⟩

/-- Claim C8 is false as stated for handlePick, the claim's cited source:
when the upload rejects, the state becomes error and the message is
surfaced verbatim, but the local preview is NOT discarded: it still holds
the picked file URI. -/
theorem C8_claim_counterexample :
    (handlePick (.picked "file:///tmp/photo.jpg" (.error "Upload failed (500)."))
      initialScreenState).step = UploadStep.error ∧
    (handlePick (.picked "file:///tmp/photo.jpg" (.error "Upload failed (500)."))
      initialScreenState).message = some "Upload failed (500)." ∧
    (handlePick (.picked "file:///tmp/photo.jpg" (.error "Upload failed (500)."))
      initialScreenState).photoPreview = some "file:///tmp/photo.jpg" ∧
    (handlePick (.picked "file:///tmp/photo.jpg" (.error "Upload failed (500)."))
      initialScreenState).photoPreview ≠ none :=
  ⟨rfl, rfl, rfl, by decide⟩

/-- Claim C8 as amended: on upload rejection the state machine transitions
to error and surfaces the rejection message verbatim on every path, but
only the second draft's web file input discards the local preview; the
native handlePick path retains it. -/
theorem C8_upload_failure_paths :
    (∀ (st : ScreenState) (uri m : String),
      (handlePick (.picked uri (.error m)) st).step = UploadStep.error ∧
      (handlePick (.picked uri (.error m)) st).message = some m ∧
      (handlePick (.picked uri (.error m)) st).photoPreview = some uri) ∧
    (∀ (st : ScreenState) (f : WebFile) (objUrl m : String), m ≠ "" →
      (webInputChangeDraft2 (.file f objUrl (.error m)) st).step = UploadStep.error ∧
      (webInputChangeDraft2 (.file f objUrl (.error m)) st).message = some m ∧
      (webInputChangeDraft2 (.file f objUrl (.error m)) st).photoPreview = none) := by
  refine ⟨fun st uri m => ⟨rfl, rfl, rfl⟩, fun st f objUrl m hm => ⟨rfl, ?_, rfl⟩⟩
  show some (if m = "" then "Upload failed" else m) = some m
  rw [if_neg hm]

/-- Witness for the amended C8 at concrete failure runs. -/
theorem C8_upload_failure_paths_witness :
    (handlePick (.picked "file:///tmp/a.jpg" (.error "boom"))
      initialScreenState).photoPreview = some "file:///tmp/a.jpg" ∧
    (webInputChangeDraft2
      (.file { size := 50000, mimeType := "image/jpeg", decoded := some (500, 500),
               dataUrl := some "data:image/jpeg;base64,AAAA" }
        "blob:q" (.error "boom"))
      initialScreenState).photoPreview = none := by
  refine ⟨(C8_upload_failure_paths.1 initialScreenState "file:///tmp/a.jpg" "boom").2.2, ?_⟩
  exact (C8_upload_failure_paths.2 initialScreenState
    { size := 50000, mimeType := "image/jpeg", decoded := some (500, 500),
      dataUrl := some "data:image/jpeg;base64,AAAA" }
    "blob:q" "boom" (by decide)).2.2

/-- Claim C10: a native file-URI string (anything not starting with data:)
is appended to the multipart body as a descriptor whose MIME type is fixed
to image/jpeg and whose name is fixed to photo.jpg, in both revisions of
uploadImageToCloudinary, whatever the actual image format. -/
theorem C10_native_uri_fixed_jpeg (s : String)
    (h : jsStartsWith s "data:" = false) :
    formFileEntry (.uriString s) = .uriPart s "image/jpeg" "photo.jpg" ∧
    formFileEntryAlt (.uriString s) = .uriPart s "image/jpeg" "photo.jpg" := by
  constructor
  · show (if jsStartsWith s "data:" then FormFileEntry.blobPart (.fetchedDataUrl s) "photo.jpg"
      else .uriPart s "image/jpeg" "photo.jpg") = .uriPart s "image/jpeg" "photo.jpg"
    rw [h, if_neg Bool.false_ne_true]
  · rfl

/-- Witness for C10 at a PNG file URI. -/
theorem C10_native_uri_fixed_jpeg_witness :
    jsStartsWith "file:///tmp/pic.png" "data:" = false ∧
    formFileEntry (.uriString "file:///tmp/pic.png") =
      .uriPart "file:///tmp/pic.png" "image/jpeg" "photo.jpg" :=
  ⟨by decide, (C10_native_uri_fixed_jpeg "file:///tmp/pic.png" (by decide)).1⟩
